import Mathlib

/-!
Shallow embedding of `src/ssb.py` (spanning backup tool).

The stateful Python program is modelled with explicit state passing:

* The filesystem is a finite association list from absolute path to file size
  (`FS`).  Only sizes are observable to the program (`os.stat().st_size`,
  `op.exists`, `os.unlink`, byte copies), so a size-valued map is a faithful
  state type for the operations the source performs.
* The per-volume catalog (`STORAGE_DB`) is a list of `FileTransaction` rows
  plus an auto-increment id counter (`MState`).
* Python exceptions are the inductive `PyExn`; fallible steps return
  `Except PyExn`.
* External failure injections (ENOSPC from the OS, `database or disk is full`
  from sqlite) are supplied through an `Env` record: each fallible syscall /
  DB commit in `Storage.backup_file` has one injection slot, `none` meaning
  the operation succeeds.

A central point of the embedding, checked against Python semantics: the
source's `backup_file` ends with `return tf, outofspace` placed INSIDE the
`finally:` block (line 324).  Per the Python language reference, a `return`
executed in a `finally` clause discards any exception that is being
propagated, including exceptions re-raised by the `except` handlers
(lines 294, 301, 304) and the `assert is_same_size(fpath, dst)` in the
`else:` clause (line 306).  Consequently `backup_file` can only raise from
the `finally` block itself (the `os.unlink(dst)` / `delete_instance`
cleanup).  The embedding reproduces exactly this observable behaviour.

`op.abspath` (line 233) is modelled as the identity: the engine already
passes `op.abspath(fpath)` (line 430), and `abspath` is idempotent, so for
every path the engine hands to `backup_file` the call is the identity.
-/

namespace SSB

/-! ### Python string primitives used by the path mapping -/

/-- Python `s[n:]` on strings (character based). -/
def strDrop (s : String) (n : Nat) : String := String.mk (s.data.drop n)

/-- Python `s[:n]` on strings (character based). -/
def strTake (s : String) (n : Nat) : String := String.mk (s.data.take n)

/-- Python `s.startswith(p)`. -/
def pyStartswith (s p : String) : Bool := p.data.isPrefixOf s.data

/-- Python `s.endswith(p)`. -/
def pyEndswith (s p : String) : Bool := p.data.isSuffixOf s.data

/-- Python `s.replace(a, b)` for the one use in the source, which removes
every colon: `suffix.replace(chr(58), str())` at line 244. -/
def removeColons (s : String) : String :=
  String.mk (s.data.filter (fun c => c ≠ ':'))

/-- `os.path.join(a, b)` for POSIX paths, two arguments: if `b` is absolute
it discards `a`; otherwise inserts a separator unless `a` is empty or
already ends with one. -/
def pjoin (a b : String) : String :=
  if pyStartswith b "/" then b
  else if a = "" then b
  else if pyEndswith a "/" then a ++ b
  else a ++ "/" ++ b

/-! ### Exceptions -/

/-- Python exceptions observable in `backup_file`.  `osError n` carries
`errno` (28 = ENOSPC, 2 = ENOENT); `operationalError` is
`peewee.OperationalError` with its message; `doesNotExist` is peewee's
`Model.DoesNotExist` from a failed `.get`. -/
inductive PyExn where
  | osError (errno : Nat)
  | operationalError (msg : String)
  | assertionError
  | nameError
  | doesNotExist
  | attributeError
  | otherError
deriving DecidableEq, Repr

/-! ### Filesystem model -/

/-- Filesystem: association list from path to file size in bytes. -/
abbrev FS := List (String × Nat)

/-- Size of the file at `p`, `none` when it does not exist. -/
def fsGet : FS → String → Option Nat
  | [], _ => none
  | e :: t, p => if e.1 = p then some e.2 else fsGet t p

/-- Create or overwrite the file at `p` with size `n`. -/
def fsSet : FS → String → Nat → FS
  | [], p, n => [(p, n)]
  | e :: t, p, n => if e.1 = p then (p, n) :: t else e :: fsSet t p n

/-- `os.unlink p`: drop the entry for `p`. -/
def fsRemove : FS → String → FS
  | [], _ => []
  | e :: t, p => if e.1 = p then fsRemove t p else e :: fsRemove t p

/-- `os.stat(p).st_size`; raises `FileNotFoundError` (OSError errno 2)
when the path does not exist. -/
def statSize (fs : FS) (p : String) : Except PyExn Nat :=
  match fsGet fs p with
  | some n => Except.ok n
  | none => Except.error (PyExn.osError 2)

/-! ### Catalog (per-volume `STORAGE_DB`) model -/

/-- A `FileTransaction` row (`src/ssb.py` lines 110-118).  `backup_set` is
the id of the referenced `BackupSet` row; `timestamp` and `version` carry no
information relevant to any claim and are omitted from the row state. -/
structure FT where
  id : Nat
  source_path : String
  dest_path : String
  size : Nat
  sha256hash : String
  backup_set : Nat
deriving DecidableEq, Repr

/-- Mutable state touched by `backup_file`: the filesystem and the open
volume's catalog (`FileTransaction` rows plus auto-increment counter). -/
structure MState where
  fs : FS
  txs : List FT
  nextId : Nat
deriving DecidableEq, Repr

/-- The sentinel hash `chr(48) * 64` (sixty-four zero characters) inserted
by the phase-1 pre-allocation write at line 264. -/
def sentinelHash : String := String.mk (List.replicate 64 '0')

/-- `Storage.record_transaction` (lines 157-167): stats the source, builds a
`FileTransaction` row and saves it.  `injected` is the failure injection for
the `ft.save()` commit (e.g. sqlite reporting a full database). -/
def record_transaction (injected : Option PyExn) (st : MState)
    (src dst hash : String) (bkSet : Nat) : Except PyExn (FT × MState) :=
  match statSize st.fs src with
  | Except.error e => Except.error e
  | Except.ok sz =>
    match injected with
    | some e => Except.error e
    | none =>
      let ft : FT := ⟨st.nextId, src, dst, sz, hash, bkSet⟩
      Except.ok (ft, { st with txs := st.txs ++ [ft], nextId := st.nextId + 1 })

/-! ### Environment of one `backup_file` call -/

/-- Ambient data and failure injections for one call to
`Storage.backup_file`.  A `none` injection means the corresponding
operation succeeds; `some e` means it raises `e` at that point. -/
structure Env where
  /-- `platform.system()` at line 235. -/
  sysname : String
  /-- `gethostname()` at line 243. -/
  hostname : String
  /-- `self.root` of the open `Storage`. -/
  root : String
  /-- failure of the `record_transaction` commit in the already-exists
  branch (line 259). -/
  existsInsertExn : Option PyExn
  /-- failure of the phase-1 sentinel-hash `record_transaction` commit
  (line 264). -/
  phase1Exn : Option PyExn
  /-- failure of `os.makedirs(dstdir)` (line 267). -/
  makedirsExn : Option PyExn
  /-- failure of `os.open(fpath, O_RDONLY)` (line 269) beyond a missing
  source (which is derived from the filesystem state). -/
  openSrcExn : Option PyExn
  /-- failure of `os.open(dst, O_WRONLY | O_CREAT)` (line 270). -/
  openDstExn : Option PyExn
  /-- failure of the read/write copy loop (lines 273-281). -/
  rwExn : Option PyExn
  /-- bytes successfully written to `dst` before `rwExn` hit. -/
  writtenBytes : Nat
  /-- failure of the phase-2 `tf.save()` hash-update commit (line 285). -/
  phase2Exn : Option PyExn
  /-- `m.hexdigest()` of the streamed content (line 284). -/
  digest : String
deriving DecidableEq, Repr

/-- Destination path computation, lines 233-245.  Returns `none` when
`platform.system()` is neither Linux nor Windows: then `dstsuffix` is never
assigned and line 243 raises `NameError`. -/
def destPath (env : Env) (fpath : String) : Option String :=
  let dstsuffixOpt :=
    if env.sysname = "Linux" then some (strDrop fpath 1)
    else if env.sysname = "Windows" then some (strTake fpath 1 ++ strDrop fpath 2)
    else none
  dstsuffixOpt.map (fun dstsuffix =>
    let suffix := pjoin env.hostname dstsuffix
    let suffix2 := removeColons suffix
    pjoin env.root suffix2)

/-- Update the catalog row whose primary key matches `ft.id` (peewee
`save()` on an already-saved model instance). -/
def txUpdate (txs : List FT) (ft : FT) : List FT :=
  txs.map (fun t => if t.id = ft.id then ft else t)

/-- The copy branch of the `try:` body (lines 260-285): phase-1 sentinel
insert, `makedirs`, open both files, streamed copy with incremental
hashing, phase-2 hash update.  Returns the raw exception raised inside the
`try` (if any), the Python binding of the local `tf` at that moment, and
the mutated state.  `os.open` with `O_CREAT` and without `O_TRUNC` creates
`dst` if missing but keeps existing bytes, so writing `n` bytes from offset
zero over a file of size `m` leaves a file of size `max m n`. -/
def copyBranch (env : Env) (st0 : MState) (fpath dst : String) (bkSet : Nat) :
    Option PyExn × Option FT × MState :=
  match record_transaction env.phase1Exn st0 fpath dst sentinelHash bkSet with
  | Except.error e => (some e, none, st0)
  | Except.ok (tf, st1) =>
    match env.makedirsExn with
    | some e => (some e, some tf, st1)
    | none =>
      match statSize st1.fs fpath with
      | Except.error e => (some e, some tf, st1)
      | Except.ok ssz =>
        match env.openSrcExn with
        | some e => (some e, some tf, st1)
        | none =>
          match env.openDstExn with
          | some e => (some e, some tf, st1)
          | none =>
            let old := (fsGet st1.fs dst).getD 0
            match env.rwExn with
            | some e =>
              (some e, some tf,
               { st1 with fs := fsSet st1.fs dst (max old env.writtenBytes) })
            | none =>
              let st2 := { st1 with fs := fsSet st1.fs dst (max old ssz) }
              let tf2 := { tf with sha256hash := env.digest }
              match env.phase2Exn with
              | some e => (some e, some tf2, st2)
              | none =>
                (none, some tf2, { st2 with txs := txUpdate st2.txs tf2 })

/-- The whole `try:` body of `backup_file` (lines 228-285): path mapping,
prefix assertion, already-exists check, then either the collapsed
reuse-hash write or the two-phase copy. -/
def tryBody (env : Env) (st0 : MState) (fpath : String) (bkSet : Nat) :
    Option PyExn × Option FT × MState :=
  match destPath env fpath with
  | none => (some PyExn.nameError, none, st0)
  | some dst =>
    if pyStartswith dst env.root then
      -- `if op.exists(dst) and is_same_size(fpath, dst):` (line 253)
      match fsGet st0.fs dst with
      | some dsz =>
        match fsGet st0.fs fpath with
        | none => (some (PyExn.osError 2), none, st0)
        | some ssz =>
          if ssz = dsz then
            -- already-present branch (lines 254-259)
            match st0.txs.find? (fun t => t.dest_path = dst) with
            | none => (some PyExn.doesNotExist, none, st0)
            | some prior =>
              match record_transaction env.existsInsertExn st0 fpath dst
                      prior.sha256hash bkSet with
              | Except.error e => (some e, some prior, st0)
              | Except.ok (ft, st1) => (none, some ft, st1)
          else
            copyBranch env st0 fpath dst bkSet
      | none => copyBranch env st0 fpath dst bkSet
    else
      -- `assert dst.startswith(self.root)` (line 247)
      (some PyExn.assertionError, none, st0)

/-- Does a raw exception set `outofspace`?  The `except OSError` handler
(line 286) sets it for errno 28; the `except pw.OperationalError` handler
(line 295) sets it for the exact message `database or disk is full`; every
other exception is re-raised - and the re-raise is then discarded by the
`return` in `finally`. -/
def setsOutofspace : PyExn → Bool
  | PyExn.osError n => n = 28
  | PyExn.operationalError msg => msg = "database or disk is full"
  | _ => false

/-- `Storage.backup_file` (lines 213-324).  Result: `Except.ok (tf, oos)`
models `return tf, outofspace`; `Except.error e` models an exception
escaping the call, which - because of the `return` inside `finally` - can
only originate from the `finally` block's own cleanup: `os.unlink(dst)` on
a missing destination, or `FileTransaction.delete_instance(tf)` with `tf`
still `None`. -/
def backupFile (env : Env) (st0 : MState) (fpath : String) (bkSet : Nat) :
    Except PyExn (Option FT × Bool) × MState :=
  let r := tryBody env st0 fpath bkSet
  let rawExn := r.1
  let tf := r.2.1
  let st1 := r.2.2
  let oos := match rawExn with
    | some e => setsOutofspace e
    | none => false
  -- the `else:` clause's `assert is_same_size(fpath, dst)` (line 306) runs
  -- when the try body raised nothing, but any AssertionError it raises is
  -- discarded by the `return` in `finally`, so it has no observable effect
  -- and contributes nothing to the result.
  if oos then
    -- finally: remove the partial file and the phase-1 row (lines 318-322)
    match destPath env fpath with
    | none => (Except.error PyExn.nameError, st1) -- unreachable: oos needs dst
    | some dst =>
      match fsGet st1.fs dst with
      | none =>
        -- `os.unlink(dst)` raises FileNotFoundError out of the finally
        (Except.error (PyExn.osError 2), st1)
      | some _ =>
        let st2 := { st1 with fs := fsRemove st1.fs dst }
        match tf with
        | none =>
          -- `FileTransaction.delete_instance(None)` raises AttributeError
          (Except.error PyExn.attributeError, st2)
        | some t =>
          (Except.ok (none, true),
           { st2 with txs := st2.txs.filter (fun x => ¬ (x.id = t.id)) })
  else
    (Except.ok (tf, false), st1)

/-- The engine's handling of one `backup_file` result (lines 439-465
restricted to the non-rotation outcome): on `outofspace` it rotates
(returns `ok false`, not done); otherwise it asserts a transaction was
recorded (line 463) and logs it (`ok true`), raising `AssertionError` when
the transaction is `None`. -/
def engineHandleResult (tf : Option FT) (oos : Bool) : Except PyExn Bool :=
  if oos then Except.ok false
  else
    match tf with
    | some _ => Except.ok true
    | none => Except.error PyExn.assertionError

/-- Strict-descendant predicate, written from the spec's words (section 4.1:
the result MUST be a strict descendant of `volume_root`): the destination
lies strictly inside the directory tree rooted at the volume root. -/
def specStrictDescendant (dst root : String) : Bool :=
  pyStartswith dst (root ++ "/") && !(dst = root ++ "/" : Bool)

/-!
### The spanning engine (`backup`, lines 375-470)

The engine loop is modelled with the `backup_file` results scripted: the
loop at lines 436-465 only inspects the returned pair
`(file_transaction, outofspace)`, so each call's observable outcome is one
of three shapes (after an out-of-space cleanup the transaction is always
`None`, so `(Some tf, True)` cannot occur):

* `Att.success` - `(Some file_transaction, False)`: log and move on;
* `Att.oos` - `(None, True)`: rotate storage and retry the same file;
* `Att.badNone` - `(None, False)`: trips the assertion at line 463.

Operator answers to the `No more storage left` prompt (lines 450-460) are
scripted as `OpResp`: `stop`, or `add valid` supplying a path that does or
does not exist.  The engine state records, per run: the pending storage
queue, the open storage (volume index in order of opening), the BackupSet
rows produced so far (pooled over all volumes, tagged with the volume each
row was saved on), the current BackupSet row, the run log, every
`backup_file` invocation `(path, volume)`, and skipped paths.
-/

/-- One `BackupSet` row as produced by the engine: lineage uuid, sequence
number, final flag, and the volume whose catalog holds the row. -/
structure BkRow where
  uuid : Nat
  seq : Nat
  is_final : Bool
  vol : Nat
deriving DecidableEq, Repr

/-- Observable outcome of one scripted `backup_file` call. -/
inductive Att where
  | success
  | oos
  | badNone
deriving DecidableEq, Repr

/-- Operator response at the exhausted-queue prompt. -/
inductive OpResp where
  | stop
  | add (valid : Bool)
deriving DecidableEq, Repr

/-- Engine state during the `backup` command. -/
structure EState where
  /-- remaining `storages` list (line 402). -/
  queue : List String
  /-- `cur_storage`, as index of the volume in order of opening. -/
  curStorage : Option Nat
  /-- number of volumes opened so far by `get_next_storage`. -/
  opened : Nat
  /-- all `BackupSet` rows saved during this run, in save order. -/
  rows : List BkRow
  /-- index into `rows` of the row `cur_bk_set` is bound to. -/
  curRow : Nat
  /-- `BackupLogEntry` source paths, in append order (lines 89-96, 464). -/
  log : List String
  /-- every `backup_file` invocation as `(path, volume)` (line 439). -/
  calls : List (String × Nat)
  /-- paths skipped by the `has_entry` check (lines 433-434). -/
  skipped : List String
deriving DecidableEq, Repr

/-- `get_next_storage(existing_backup_set)` (lines 386-400) in the case
where the queue is known non-empty and an existing BackupSet is passed:
pop the head, open that volume, and clone the current BackupSet forward -
same `uuid`, `sequence_number + 1`, fresh row saved on the new volume. -/
def openNext (st : EState) (rest : List String) : EState :=
  let cur := st.rows.getD st.curRow ⟨0, 0, false, 0⟩
  let newRow : BkRow :=
    { uuid := cur.uuid, seq := cur.seq + 1, is_final := cur.is_final,
      vol := st.opened }
  { st with queue := rest,
            curStorage := some st.opened,
            opened := st.opened + 1,
            rows := st.rows ++ [newRow],
            curRow := st.rows.length }

/-- Result of the rotation loop (lines 444-460). -/
inductive RotRes where
  | openedR (st : EState) (resps : List OpResp)
  | suspendedR (st : EState)
  | stuckR
deriving DecidableEq, Repr

/-- The prompting iterations of the `while cur_storage is None` loop when
the queue is empty (lines 450-460): `STOP` returns from `backup`
(suspend); a valid path is appended to the (empty) queue and immediately
popped by the next `get_next_storage`, which opens it (`openNext` with an
empty remaining queue, as `openNext` overwrites the queue field); an
invalid path prints and re-prompts.  `stuckR` marks an exhausted response
script (the real prompt blocks forever). -/
def promptLoop (st : EState) : List OpResp → RotRes
  | [] => RotRes.stuckR
  | OpResp.stop :: _ => RotRes.suspendedR st
  | OpResp.add true :: rs => RotRes.openedR (openNext st []) rs
  | OpResp.add false :: rs => promptLoop st rs

/-- The `while cur_storage is None` loop (lines 444-460): pop the queue if
possible, otherwise defer to the operator prompt. -/
def rotateLoop (st : EState) (resps : List OpResp) : RotRes :=
  match st.queue with
  | _ :: rest => RotRes.openedR (openNext st rest) resps
  | [] => promptLoop st resps

/-- Result of processing one discovered file (lines 436-465). -/
inductive FileRes where
  | nextFile (st : EState) (resps : List OpResp)
  | suspendedF (st : EState)
  | stuckF
  | raisedF (st : EState)
deriving DecidableEq, Repr

/-- The `while not done` loop for one file (lines 437-465): call
`backup_file` on the current storage (recorded in `calls`); on success
append the run-log entry and finish the file; on `(None, False)` the
assertion at line 463 raises; on out-of-space disconnect the current
storage and run the rotation loop, then retry the same file. -/
def processFile (path : String) : EState → List OpResp → List Att → FileRes
  | _, _, [] => FileRes.stuckF
  | st, resps, Att.success :: _ =>
    FileRes.nextFile
      { st with calls := st.calls ++ [(path, st.curStorage.getD 0)],
                log := st.log ++ [path] } resps
  | st, _, Att.badNone :: _ =>
    FileRes.raisedF
      { st with calls := st.calls ++ [(path, st.curStorage.getD 0)] }
  | st, resps, Att.oos :: rest =>
    match rotateLoop
        { st with calls := st.calls ++ [(path, st.curStorage.getD 0)],
                  curStorage := none } resps with
    | RotRes.openedR st3 rs => processFile path st3 rs rest
    | RotRes.suspendedR st3 => FileRes.suspendedF st3
    | RotRes.stuckR => FileRes.stuckF

/-- Outcome of a whole run. -/
inductive RunOutcome where
  | completed (st : EState)
  | suspendedRun (st : EState)
  | raisedRun (st : EState)
  | stuckRun
deriving DecidableEq, Repr

/-- Run completion (lines 468-469): `cur_bk_set.is_final = True` followed
by `save()`, updating the current BackupSet row in place. -/
def finalizeRun (st : EState) : EState :=
  let cur := st.rows.getD st.curRow ⟨0, 0, false, 0⟩
  { st with rows := st.rows.set st.curRow { cur with is_final := true } }

/-- The walk over discovered files (lines 426-469): skip any path already
present in the run log (sole resumption signal, line 433), otherwise
process it; after the last file, mark the current BackupSet final. -/
def runAll : EState → List OpResp → List (String × List Att) → RunOutcome
  | st, _, [] => RunOutcome.completed (finalizeRun st)
  | st, resps, (p, atts) :: rest =>
    if st.log.contains p then
      runAll { st with skipped := st.skipped ++ [p] } resps rest
    else
      match processFile p st resps atts with
      | FileRes.nextFile st2 rs => runAll st2 rs rest
      | FileRes.suspendedF st2 => RunOutcome.suspendedRun st2
      | FileRes.stuckF => RunOutcome.stuckRun
      | FileRes.raisedF st2 => RunOutcome.raisedRun st2

/-- Fresh-run initial engine state (lines 402-424): the first storage is
popped and opened with no clone (`get_next_storage()` with no existing
set), then a fresh BackupSet with a new lineage uuid `u`,
`sequence_number = 0` and `is_final = False` is saved on it. -/
def initialEState (u : Nat) (restQueue : List String) : EState :=
  { queue := restQueue, curStorage := some 0, opened := 1,
    rows := [⟨u, 0, false, 0⟩], curRow := 0,
    log := [], calls := [], skipped := [] }

/-! ### Concrete data for the example runs -/

/-- Environment with every injectable operation succeeding, on a Linux host
`h` writing into a volume rooted at `/r`. -/
def envL : Env :=
  { sysname := "Linux", hostname := "h", root := "/r",
    existsInsertExn := none, phase1Exn := none, makedirsExn := none,
    openSrcExn := none, openDstExn := none, rwExn := none,
    writtenBytes := 0, phase2Exn := none, digest := "d" }

/-- ENOSPC in the middle of the byte copy, 5 of 10 bytes written. -/
def envC1 : Env := { envL with rwExn := some (PyExn.osError 28), writtenBytes := 5 }

/-- One 10-byte source file `/a`, empty catalog. -/
def stC1 : MState := { fs := [("/a", 10)], txs := [], nextId := 1 }

/-- EIO (errno 5) in the middle of the byte copy, 5 of 10 bytes written. -/
def envC2 : Env := { envL with rwExn := some (PyExn.osError 5), writtenBytes := 5 }

/-- Phase-1 sentinel insert fails with sqlite's out-of-space message. -/
def envC3 : Env :=
  { envL with phase1Exn := some (PyExn.operationalError "database or disk is full") }

/-- Source `/a` is 100 bytes; a stale 200-byte file sits at the mapped
destination `/r/h/a`. -/
def stC4 : MState := { fs := [("/a", 100), ("/r/h/a", 200)], txs := [], nextId := 0 }

/-- Destination `/r/h/a` already present with the source's size, recorded
by a prior FileTransaction with hash `abc` under backup set 7. -/
def stC8 : MState :=
  { fs := [("/a", 10), ("/r/h/a", 10)],
    txs := [⟨0, "/a", "/r/h/a", 10, "abc", 7⟩], nextId := 1 }

/-- A 3-byte source at the POSIX double-slash path `//rx`. -/
def stC9 : MState := { fs := [("//rx", 3)], txs := [], nextId := 0 }

/-- A platform that is neither Linux nor Windows. -/
def envC10 : Env := { envL with sysname := "Darwin" }

/-- Fresh two-volume run: volume 0 open, one queued volume. -/
def stC5 : EState := initialEState 7 ["s1"]

/-- Two files; the first overflows volume 0 and succeeds on volume 1. -/
def filesC5 : List (String × List Att) :=
  [("/a", [Att.oos, Att.success]), ("/b", [Att.success])]

/-- Final engine state of the `filesC5` run. -/
def stfC5 : EState :=
  { queue := [], curStorage := some 1, opened := 2,
    rows := [⟨7, 0, false, 0⟩, ⟨7, 1, true, 1⟩], curRow := 1,
    log := ["/a", "/b"], calls := [("/a", 0), ("/a", 1), ("/b", 1)],
    skipped := [] }

/-- Second run over the same two files, with both already in the run log. -/
def stC6 : EState := { initialEState 7 [] with log := ["/a", "/b"] }

/-- Engine state after processing `/a` with one rotation. -/
def stfC7 : EState :=
  { queue := [], curStorage := some 1, opened := 2,
    rows := [⟨7, 0, false, 0⟩, ⟨7, 1, false, 1⟩], curRow := 1,
    log := ["/a"], calls := [("/a", 0), ("/a", 1)], skipped := [] }

/-- Mid-run invariant of a fresh run with lineage uuid `u`: one BackupSet
row per opened volume, the i-th row being
`uuid = u, sequence_number = i, is_final = False, volume = i`, with
`cur_bk_set` bound to the last row. -/
def rowsOk (u : Nat) (st : EState) : Prop :=
  st.rows.length = st.opened
  ∧ st.curRow + 1 = st.rows.length
  ∧ ∀ i, i < st.rows.length → st.rows[i]? = some ⟨u, i, false, i⟩

/-! ### Helper lemmas -/

theorem fsGet_fsSet_self (fs : FS) (p : String) (n : Nat) :
    fsGet (fsSet fs p n) p = some n := by
  induction fs with
  | nil => simp [fsSet, fsGet]
  | cons e t ih =>
    by_cases h : e.1 = p
    · simp [fsSet, fsGet, h]
    · simp [fsSet, fsGet, h, ih]

theorem fsGet_fsRemove_self (fs : FS) (p : String) :
    fsGet (fsRemove fs p) p = none := by
  induction fs with
  | nil => simp [fsRemove, fsGet]
  | cons e t ih =>
    by_cases h : e.1 = p
    · simp [fsRemove, h, ih]
    · simp [fsRemove, fsGet, h, ih]

/-- Deleting the freshly inserted row (primary key `n`) from a catalog all
of whose prior rows have smaller ids restores the prior catalog. -/
theorem filter_append_fresh (l : List FT) (n : Nat) (tf : FT)
    (htf : tf.id = n) (h : ∀ t ∈ l, t.id < n) :
    (l ++ [tf]).filter (fun x => ¬ (x.id = n)) = l := by
  induction l with
  | nil => simp [List.filter, htf]
  | cons a t ih =>
    have ha : ¬ (a.id = n) := Nat.ne_of_lt (h a (by simp))
    simp only [List.cons_append, List.filter_cons]
    rw [if_pos (by simpa using ha)]
    rw [ih (fun x hx => h x (by simp [hx]))]

/-! ### Claims about `Storage.backup_file` -/

/-- C1: if the byte copy fails with ENOSPC, or the phase-2 hash-update
commit fails with sqlite's `database or disk is full`, then `backup_file`
deletes the partially-written destination file, deletes the phase-1
FileTransaction row, and returns `(None, True)` - the OutOfSpace outcome -
rather than raising. -/
theorem backup_file_oos_copy_cleanup
    (env : Env) (st0 : MState) (fpath dst : String) (bkSet : Nat) (ssz : Nat)
    (hwf : ∀ t ∈ st0.txs, t.id < st0.nextId)
    (hdst : destPath env fpath = some dst)
    (hpref : pyStartswith dst env.root = true)
    (hsrc : fsGet st0.fs fpath = some ssz)
    (hnsame : fsGet st0.fs dst ≠ some ssz)
    (h1 : env.phase1Exn = none) (h2 : env.makedirsExn = none)
    (h3 : env.openSrcExn = none) (h4 : env.openDstExn = none)
    (hfail : env.rwExn = some (PyExn.osError 28)
      ∨ (env.rwExn = none
         ∧ env.phase2Exn
             = some (PyExn.operationalError "database or disk is full"))) :
    (backupFile env st0 fpath bkSet).1 = Except.ok (none, true)
    ∧ fsGet (backupFile env st0 fpath bkSet).2.fs dst = none
    ∧ (backupFile env st0 fpath bkSet).2.txs = st0.txs := by
  have hrec : record_transaction env.phase1Exn st0 fpath dst sentinelHash bkSet
      = Except.ok (⟨st0.nextId, fpath, dst, ssz, sentinelHash, bkSet⟩,
          { st0 with
              txs := st0.txs ++ [⟨st0.nextId, fpath, dst, ssz, sentinelHash, bkSet⟩],
              nextId := st0.nextId + 1 }) := by
    simp [record_transaction, statSize, hsrc, h1]
  have hcopy : ∃ tfr : FT, tfr.id = st0.nextId ∧ ∃ e : PyExn, setsOutofspace e = true ∧
      copyBranch env st0 fpath dst bkSet
        = (some e, some tfr,
           { st0 with
               txs := st0.txs ++ [⟨st0.nextId, fpath, dst, ssz, sentinelHash, bkSet⟩],
               nextId := st0.nextId + 1,
               fs := fsSet st0.fs dst
                 (max ((fsGet st0.fs dst).getD 0)
                   (if env.rwExn = some (PyExn.osError 28) then env.writtenBytes else ssz)) }) := by
    rcases hfail with hrw | ⟨hrw, hph⟩
    · refine ⟨⟨st0.nextId, fpath, dst, ssz, sentinelHash, bkSet⟩, rfl,
        PyExn.osError 28, rfl, ?_⟩
      simp [copyBranch, hrec, h2, h3, h4, hrw, statSize, hsrc]
    · refine ⟨⟨st0.nextId, fpath, dst, ssz, env.digest, bkSet⟩, rfl,
        PyExn.operationalError "database or disk is full", rfl, ?_⟩
      simp [copyBranch, hrec, h2, h3, h4, hrw, hph, statSize, hsrc]
  obtain ⟨tfr, htfr, e, he, hcb⟩ := hcopy
  have htry : tryBody env st0 fpath bkSet
      = copyBranch env st0 fpath dst bkSet := by
    rcases hdfs : fsGet st0.fs dst with _ | dsz
    · simp [tryBody, hdst, hpref, hdfs]
    · have hne : ¬ (ssz = dsz) := by
        intro hh
        exact hnsame (by rw [hdfs, hh])
      simp [tryBody, hdst, hpref, hdfs, hsrc, hne]
  have hfsd : fsGet (backupFile env st0 fpath bkSet).2.fs dst = none ∧
      (backupFile env st0 fpath bkSet).1 = Except.ok (none, true) ∧
      (backupFile env st0 fpath bkSet).2.txs
        = (st0.txs
            ++ [(⟨st0.nextId, fpath, dst, ssz, sentinelHash, bkSet⟩ : FT)]).filter
            (fun x => ¬ (x.id = tfr.id)) := by
    simp only [backupFile, htry, hcb, he, hdst, fsGet_fsSet_self]
    refine ⟨by simp [fsGet_fsRemove_self], by simp, by simp⟩
  refine ⟨hfsd.2.1, hfsd.1, ?_⟩
  rw [hfsd.2.2, htfr]
  exact filter_append_fresh st0.txs st0.nextId _ rfl hwf

/-- Witness for C1: ENOSPC halfway through copying the 10-byte file `/a`
onto the volume rooted at `/r` leaves no destination file, no catalog row,
and returns the OutOfSpace pair. -/
theorem backup_file_oos_copy_cleanup_witness :
    (backupFile envC1 stC1 "/a" 0).1 = Except.ok (none, true)
    ∧ fsGet (backupFile envC1 stC1 "/a" 0).2.fs "/r/h/a" = none
    ∧ (backupFile envC1 stC1 "/a" 0).2.txs = stC1.txs :=
  backup_file_oos_copy_cleanup envC1 stC1 "/a" "/r/h/a" 0 10
    (by decide) (by decide) (by decide) (by decide) (by decide)
    rfl rfl rfl rfl (Or.inl rfl)

/-- C2 (the claim is refuted by the code): an I/O error that matches
neither out-of-space signature - here EIO, errno 5, during the byte copy -
does NOT propagate out of `backup_file`.  The `except OSError` handler
re-raises it (line 294), but the `return tf, outofspace` inside `finally`
(line 324) discards the in-flight exception, so the call returns the
phase-1 sentinel-hash FileTransaction with `outofspace = False`; the engine
then treats the file as successfully backed up (logs it, line 464) instead
of aborting.  The destination holds only 5 of the 10 source bytes. -/
theorem backup_file_swallows_fatal_error :
    (backupFile envC2 stC1 "/a" 0).1
      = Except.ok (some ⟨1, "/a", "/r/h/a", 10, sentinelHash, 0⟩, false)
    ∧ fsGet (backupFile envC2 stC1 "/a" 0).2.fs "/r/h/a" = some 5
    ∧ engineHandleResult (some ⟨1, "/a", "/r/h/a", 10, sentinelHash, 0⟩) false
        = Except.ok true :=
  ⟨rfl, rfl, rfl⟩

/-- C3 (the claim is refuted by the code): when the phase-1 sentinel
insert itself fails with `database or disk is full`, no destination file
exists yet, so the cleanup `os.unlink(dst)` in the `finally` block
(line 320) raises `FileNotFoundError` (OSError errno 2), which propagates
out of `backup_file` and aborts the run - instead of the claimed
out-of-space return. -/
theorem backup_file_phase1_full_raises_in_cleanup :
    backupFile envC3 stC1 "/a" 0
      = (Except.error (PyExn.osError 2), stC1) :=
  rfl

/-- C4 (the claim is refuted by the code): a call that returns a
transaction with the out-of-space flag clear need not satisfy the size
invariant.  With a stale 200-byte file at the destination, the copy opens
it with `O_CREAT` but without `O_TRUNC` (line 270), overwrites the first
100 bytes and leaves the trailing 100, so the destination ends at 200
bytes while the source has 100; the `assert is_same_size` at line 306
fires, but the `return` in `finally` discards the AssertionError and the
call returns the transaction as a success. -/
theorem backup_file_success_size_mismatch :
    (backupFile envL stC4 "/a" 0).1
      = Except.ok (some ⟨0, "/a", "/r/h/a", 100, "d", 0⟩, false)
    ∧ fsGet (backupFile envL stC4 "/a" 0).2.fs "/r/h/a" = some 200
    ∧ fsGet (backupFile envL stC4 "/a" 0).2.fs "/a" = some 100 :=
  ⟨rfl, rfl, rfl⟩

/-- C8: when the destination exists with the source's size, `backup_file`
copies nothing (the filesystem is unchanged), looks up the first prior
FileTransaction for that destination path, and writes exactly one new
FileTransaction that reuses the prior hash and references the current
backup set - the sentinel phase never happens. -/
theorem backup_file_reuses_prior_hash
    (env : Env) (st0 : MState) (fpath dst : String) (bkSet : Nat) (ssz : Nat)
    (prior : FT)
    (hdst : destPath env fpath = some dst)
    (hpref : pyStartswith dst env.root = true)
    (hsrc : fsGet st0.fs fpath = some ssz)
    (hdfs : fsGet st0.fs dst = some ssz)
    (hprior : st0.txs.find? (fun t => t.dest_path = dst) = some prior)
    (hins : env.existsInsertExn = none) :
    backupFile env st0 fpath bkSet
      = (Except.ok
           (some ⟨st0.nextId, fpath, dst, ssz, prior.sha256hash, bkSet⟩, false),
         { st0 with
             txs := st0.txs
               ++ [⟨st0.nextId, fpath, dst, ssz, prior.sha256hash, bkSet⟩],
             nextId := st0.nextId + 1 }) := by
  have hrec : record_transaction env.existsInsertExn st0 fpath dst
      prior.sha256hash bkSet
      = Except.ok (⟨st0.nextId, fpath, dst, ssz, prior.sha256hash, bkSet⟩,
          { st0 with
              txs := st0.txs
                ++ [⟨st0.nextId, fpath, dst, ssz, prior.sha256hash, bkSet⟩],
              nextId := st0.nextId + 1 }) := by
    simp [record_transaction, statSize, hsrc, hins]
  have htry : tryBody env st0 fpath bkSet
      = (none, some ⟨st0.nextId, fpath, dst, ssz, prior.sha256hash, bkSet⟩,
         { st0 with
             txs := st0.txs
               ++ [⟨st0.nextId, fpath, dst, ssz, prior.sha256hash, bkSet⟩],
             nextId := st0.nextId + 1 }) := by
    simp [tryBody, hdst, hpref, hdfs, hsrc, hprior, hrec]
  simp [backupFile, htry]

/-- Witness for C8: `/r/h/a` already holds 10 bytes matching `/a`; the
prior transaction's hash `abc` is copied into one new row referencing
backup set 3, with no filesystem change. -/
theorem backup_file_reuses_prior_hash_witness :
    backupFile envL stC8 "/a" 3
      = (Except.ok (some ⟨1, "/a", "/r/h/a", 10, "abc", 3⟩, false),
         { stC8 with
             txs := stC8.txs ++ [⟨1, "/a", "/r/h/a", 10, "abc", 3⟩],
             nextId := 2 }) :=
  backup_file_reuses_prior_hash envL stC8 "/a" "/r/h/a" 3 10
    ⟨0, "/a", "/r/h/a", 10, "abc", 7⟩
    (by decide) (by decide) (by decide) (by decide) (by decide) rfl

/-- C9 (the claim is refuted by the code): for the absolute POSIX path
`//rx` (double-slash root, preserved by `abspath`/`normpath`), the Linux
branch strips one slash leaving the absolute `/rx`, which `op.join`
then lets override both the hostname and the volume root, so the computed
destination is `/rx`.  The code's `assert dst.startswith(self.root)`
(line 247) passes, because `/rx` has `/r` as a string prefix, yet `/rx` is
not a strict descendant of the volume root `/r` - and `backup_file`
proceeds to write the file outside the volume. -/
theorem backup_file_escapes_volume_root :
    destPath envL "//rx" = some "/rx"
    ∧ pyStartswith "/rx" envL.root = true
    ∧ specStrictDescendant "/rx" envL.root = false
    ∧ (backupFile envL stC9 "//rx" 0).1
        = Except.ok (some ⟨0, "//rx", "/rx", 3, "d", 0⟩, false)
    ∧ fsGet (backupFile envL stC9 "//rx" 0).2.fs "/rx" = some 3 :=
  ⟨rfl, rfl, rfl, rfl, rfl⟩

/-- C10: on a platform that is neither Linux nor Windows, `dstsuffix` is
never assigned, so line 243 raises `NameError` before any destination is
computed, any byte is copied or any FileTransaction is recorded; the
`except Exception` handler re-raises it, the `return` in `finally`
discards it, and `backup_file` returns `(None, False)` with the state
untouched - which then trips the engine's
`Not out of space but also no file transaction recorded` assertion at
line 463. -/
theorem backup_file_unknown_platform_trips_engine_assert
    (env : Env) (st0 : MState) (fpath : String) (bkSet : Nat)
    (hL : ¬ (env.sysname = "Linux")) (hW : ¬ (env.sysname = "Windows")) :
    backupFile env st0 fpath bkSet = (Except.ok (none, false), st0)
    ∧ engineHandleResult none false = Except.error PyExn.assertionError := by
  have hd : destPath env fpath = none := by simp [destPath, hL, hW]
  constructor
  · simp [backupFile, tryBody, hd, setsOutofspace]
  · rfl

/-- Witness for C10: platform `Darwin`. -/
theorem backup_file_unknown_platform_witness :
    backupFile envC10 stC1 "/a" 0 = (Except.ok (none, false), stC1)
    ∧ engineHandleResult none false = Except.error PyExn.assertionError :=
  backup_file_unknown_platform_trips_engine_assert envC10 stC1 "/a" 0
    (by decide) (by decide)

/-! ### Claims about the spanning engine -/

/-- C6: a run in which every discovered path already has a run-log entry
skips each of them before `backup_file` is ever invoked: the final state
differs from the initial one only by the skip list (then the completion
flag on the current BackupSet row) - same log (entry count unchanged),
same `backup_file` call list (zero calls, hence zero new FileTransactions
and zero bytes copied), same BackupSet rows before finalization. -/
theorem second_run_skips_everything
    (st : EState) (resps : List OpResp) (files : List (String × List Att))
    (hall : ∀ pa ∈ files, st.log.contains pa.1 = true) :
    runAll st resps files
      = RunOutcome.completed
          (finalizeRun
            { st with skipped := st.skipped ++ files.map (fun pa => pa.1) }) := by
  induction files generalizing st with
  | nil => simp [runAll]
  | cons pa rest ih =>
    obtain ⟨p, atts⟩ := pa
    have hp : st.log.contains p = true := hall (p, atts) (by simp)
    have hrest : ∀ pa ∈ rest,
        ({ st with skipped := st.skipped ++ [p] } : EState).log.contains pa.1
          = true := by
      intro x hx
      exact hall x (by simp [hx])
    have hp' : p ∈ st.log := by simpa using hp
    have hstep : runAll st resps ((p, atts) :: rest)
        = runAll { st with skipped := st.skipped ++ [p] } resps rest := by
      simp [runAll, hp']
    rw [hstep, ih _ hrest]
    simp

/-- Witness for C6: both files of the completed `filesC5` run are already
logged; the second run only extends the skip list. -/
theorem second_run_skips_everything_witness :
    runAll stC6 [] [("/a", []), ("/b", [])]
      = RunOutcome.completed
          (finalizeRun { stC6 with skipped := stC6.skipped ++ ["/a", "/b"] }) :=
  second_run_skips_everything stC6 [] [("/a", []), ("/b", [])] (by decide)

/-- Any successful exit of the prompting loop opens the next supplied
volume: the result is `openNext` of the entry state with an empty
remaining queue. -/
theorem promptLoop_opened_shape (st : EState) :
    ∀ (resps : List OpResp) (st2 : EState) (rs : List OpResp),
      promptLoop st resps = RotRes.openedR st2 rs → st2 = openNext st [] := by
  intro resps
  induction resps with
  | nil =>
    intro st2 rs h
    exact absurd h (by simp [promptLoop])
  | cons r rt ih =>
    intro st2 rs h
    cases r with
    | stop => exact absurd h (by simp [promptLoop])
    | add b =>
      cases b with
      | false =>
        simp only [promptLoop] at h
        exact ih _ _ h
      | true =>
        simp only [promptLoop] at h
        injection h with h1 h2
        exact h1.symm

/-- Any successful exit of the rotation loop is a single `openNext`: one
volume popped (possibly after operator prompting refilled the queue) and
the BackupSet cloned forward exactly once.  The resulting state equals
`openNext` of the entry state, whose input queue `openNext` ignores. -/
theorem rotateLoop_opened_shape (resps : List OpResp) (st st2 : EState)
    (rs : List OpResp) (h : rotateLoop st resps = RotRes.openedR st2 rs) :
    st2 = openNext st st2.queue := by
  unfold rotateLoop at h
  rcases hq : st.queue with _ | ⟨s, rest⟩ <;> rw [hq] at h
  · have h2 := promptLoop_opened_shape st resps st2 rs h
    rw [h2]
    rfl
  · injection h with h1 h2
    subst h1
    rfl

/-- Field-level consequences of `rotateLoop_opened_shape`. -/
theorem rotateLoop_opened_fields (resps : List OpResp) (st st2 : EState)
    (rs : List OpResp) (h : rotateLoop st resps = RotRes.openedR st2 rs) :
    st2.opened = st.opened + 1 ∧ st2.curStorage = some st.opened
    ∧ st2.log = st.log ∧ st2.calls = st.calls ∧ st2.skipped = st.skipped
    ∧ st2.curRow = st.rows.length
    ∧ st2.rows = st.rows
        ++ [{ uuid := (st.rows.getD st.curRow ⟨0, 0, false, 0⟩).uuid,
              seq := (st.rows.getD st.curRow ⟨0, 0, false, 0⟩).seq + 1,
              is_final := (st.rows.getD st.curRow ⟨0, 0, false, 0⟩).is_final,
              vol := st.opened }] := by
  have hs := rotateLoop_opened_shape resps st st2 rs h
  rw [hs]
  exact ⟨rfl, rfl, rfl, rfl, rfl, rfl, rfl⟩

/-- C7: if processing one discovered file ends with the engine advancing
to the next path, then what happened was exactly k out-of-space results
followed by one success: the engine invoked `backup_file` for that same
path once per attempt on k + 1 consecutively opened volumes (the file is
never skipped by a rotation), opened exactly k new volumes, and appended
exactly one run-log entry for the path, after the success. -/
theorem rotation_never_skips_file (path : String) :
    ∀ (atts : List Att) (st : EState) (resps : List OpResp) (st2 : EState)
      (rs : List OpResp) (c : Nat),
      st.curStorage = some c → c + 1 = st.opened →
      processFile path st resps atts = FileRes.nextFile st2 rs →
      ∃ k, (∀ j, j < k → atts[j]? = some Att.oos)
        ∧ atts[k]? = some Att.success
        ∧ st2.log = st.log ++ [path]
        ∧ st2.calls = st.calls ++ (List.range' c (k + 1)).map (fun v => (path, v))
        ∧ st2.opened = st.opened + k := by
  intro atts
  induction atts with
  | nil =>
    intro st resps st2 rs c hcur hc h
    simp only [processFile] at h
    exact absurd h (by simp)
  | cons a rest ih =>
    intro st resps st2 rs c hcur hc h
    cases a with
    | success =>
      simp only [processFile] at h
      injection h with h1 h2
      refine ⟨0, ?_, ?_, ?_, ?_, ?_⟩
      · intro j hj
        exact absurd hj (Nat.not_lt_zero j)
      · simp
      · rw [← h1]
      · rw [← h1]
        simp [hcur, List.range']
      · rw [← h1]
        simp
    | badNone =>
      simp only [processFile] at h
      exact FileRes.noConfusion h
    | oos =>
      simp only [processFile] at h
      split at h
      case _ st3 rs3 hrot =>
        obtain ⟨ho, hcs, hlg, hcl, hsk, hcr, hrw2⟩ :=
          rotateLoop_opened_fields _ _ _ _ hrot
        obtain ⟨k, hj, hsucc, hlog, hcalls, hop⟩ :=
          ih st3 rs3 st2 rs st.opened hcs ho.symm h
        refine ⟨k + 1, ?_, ?_, ?_, ?_, ?_⟩
        · intro j hjk
          cases j with
          | zero => simp
          | succ j0 => simpa using hj j0 (by omega)
        · simpa using hsucc
        · rw [hlog, hlg]
        · rw [hcalls, hcl]
          have hstep : List.range' c (k + 1 + 1)
              = c :: List.range' (c + 1) (k + 1) := List.range'_succ c (k + 1) 1
          rw [hstep]
          simp only [List.map_cons]
          rw [hc, hcur]
          simp
        · have ho2 : st3.opened = st.opened + 1 := ho
          omega
      case _ st3 hrot => exact FileRes.noConfusion h
      case _ hrot => exact FileRes.noConfusion h

/-- Witness for C7: one out-of-space result on volume 0, rotation, success
on volume 1; the path `/a` is retried on the new volume and logged once. -/
theorem rotation_never_skips_file_witness :
    ∃ k, (∀ j, j < k → [Att.oos, Att.success][j]? = some Att.oos)
      ∧ [Att.oos, Att.success][k]? = some Att.success
      ∧ stfC7.log = stC5.log ++ ["/a"]
      ∧ stfC7.calls
          = stC5.calls ++ (List.range' 0 (k + 1)).map (fun v => ("/a", v))
      ∧ stfC7.opened = stC5.opened + k :=
  rotation_never_skips_file "/a" [Att.oos, Att.success] stC5 [] stfC7 [] 0
    (by decide) (by decide) (by decide)

/-- Opening the next volume preserves the lineage invariant: the clone
appends row `⟨u, N, False, N⟩` to the N rows already produced. -/
theorem rowsOk_openNext (u : Nat) (st : EState) (rest : List String)
    (h : rowsOk u st) : rowsOk u (openNext st rest) := by
  obtain ⟨h1, h2, h3⟩ := h
  have hcr : st.curRow < st.rows.length := by omega
  have hget : st.rows[st.curRow]? = some ⟨u, st.curRow, false, st.curRow⟩ :=
    h3 _ hcr
  have hgetD : st.rows.getD st.curRow ⟨0, 0, false, 0⟩
      = ⟨u, st.curRow, false, st.curRow⟩ := by
    rw [List.getD_eq_getElem?_getD, hget]
    rfl
  have hrows : (openNext st rest).rows
      = st.rows ++ [⟨u, st.rows.length, false, st.rows.length⟩] := by
    simp only [openNext]
    rw [hgetD, h2, ← h1]
  refine ⟨?_, ?_, ?_⟩
  · rw [hrows]
    have : (openNext st rest).opened = st.opened + 1 := rfl
    rw [this]
    simp [h1]
  · have : (openNext st rest).curRow = st.rows.length := rfl
    rw [this, hrows]
    simp
  · intro i hi
    rw [hrows] at hi ⊢
    simp only [List.length_append, List.length_cons, List.length_nil] at hi
    rcases Nat.lt_or_ge i st.rows.length with hlt | hge
    · rw [List.getElem?_append_left hlt]
      exact h3 i hlt
    · have hieq : i = st.rows.length := by omega
      subst hieq
      rw [List.getElem?_concat_length]

/-- The rotation loop preserves the lineage invariant. -/
theorem rowsOk_rotateLoop (u : Nat) (resps : List OpResp) (st st2 : EState)
    (rs : List OpResp) (hok : rowsOk u st)
    (h : rotateLoop st resps = RotRes.openedR st2 rs) : rowsOk u st2 := by
  have hs := rotateLoop_opened_shape resps st st2 rs h
  rw [hs]
  exact rowsOk_openNext u st st2.queue hok

/-- Processing one file preserves the lineage invariant. -/
theorem rowsOk_processFile (u : Nat) (path : String) :
    ∀ (atts : List Att) (st : EState) (resps : List OpResp) (st2 : EState)
      (rs : List OpResp),
      rowsOk u st → processFile path st resps atts = FileRes.nextFile st2 rs →
      rowsOk u st2 := by
  intro atts
  induction atts with
  | nil =>
    intro st resps st2 rs hok h
    simp only [processFile] at h
    exact absurd h (by simp)
  | cons a rest ih =>
    intro st resps st2 rs hok h
    cases a with
    | success =>
      simp only [processFile] at h
      injection h with h1 h2
      rw [← h1]
      exact hok
    | badNone =>
      simp only [processFile] at h
      exact FileRes.noConfusion h
    | oos =>
      simp only [processFile] at h
      split at h
      case _ st3 rs3 hrot =>
        have hok2 : rowsOk u
            { st with calls := st.calls ++ [(path, st.curStorage.getD 0)],
                      curStorage := none } := hok
        exact ih st3 rs3 st2 rs (rowsOk_rotateLoop u resps _ st3 rs3 hok2 hrot) h
      case _ st3 hrot => exact FileRes.noConfusion h
      case _ hrot => exact FileRes.noConfusion h

/-- A completed run is a finalization of a state satisfying the lineage
invariant. -/
theorem rowsOk_runAll (u : Nat) :
    ∀ (files : List (String × List Att)) (st : EState) (resps : List OpResp)
      (stf : EState),
      rowsOk u st → runAll st resps files = RunOutcome.completed stf →
      ∃ stp, rowsOk u stp ∧ stf = finalizeRun stp := by
  intro files
  induction files with
  | nil =>
    intro st resps stf hok h
    simp only [runAll] at h
    injection h with h1
    exact ⟨st, hok, h1.symm⟩
  | cons pa rest ih =>
    intro st resps stf hok h
    obtain ⟨p, atts⟩ := pa
    simp only [runAll] at h
    by_cases hp : p ∈ st.log
    · rw [if_pos (by simpa using hp)] at h
      exact ih { st with skipped := st.skipped ++ [p] } resps stf hok h
    · rw [if_neg (by simpa using hp)] at h
      split at h
      case _ st2 rs hpf =>
        exact ih st2 rs stf (rowsOk_processFile u p atts st resps st2 rs hok hpf) h
      case _ st2 hpf => exact RunOutcome.noConfusion h
      case _ hpf => exact RunOutcome.noConfusion h
      case _ st2 hpf => exact RunOutcome.noConfusion h

/-- C5: a fresh run with lineage uuid `u` that completes after opening N
volumes has produced exactly N BackupSet rows - one per volume, in volume
order - all sharing the lineage uuid `u`, with strictly increasing
sequence numbers 0..N-1 (row i has `sequence_number = i` and sits on
volume i), and `is_final = True` exactly on the last row written. -/
theorem lineage_monotonicity
    (u : Nat) (queueRest : List String) (files : List (String × List Att))
    (resps : List OpResp) (stf : EState)
    (h : runAll (initialEState u queueRest) resps files
      = RunOutcome.completed stf) :
    stf.rows.length = stf.opened
    ∧ 0 < stf.rows.length
    ∧ ∀ i, i < stf.rows.length →
        stf.rows[i]? = some ⟨u, i, decide (i + 1 = stf.rows.length), i⟩ := by
  have hok0 : rowsOk u (initialEState u queueRest) := by
    refine ⟨rfl, rfl, ?_⟩
    intro i hi
    have : i = 0 := by
      simpa [initialEState] using hi
    subst this
    rfl
  obtain ⟨stp, hok, hstf⟩ := rowsOk_runAll u files _ resps stf hok0 h
  subst hstf
  obtain ⟨h1, h2, h3⟩ := hok
  have hcr : stp.curRow < stp.rows.length := by omega
  have hget : stp.rows[stp.curRow]? = some ⟨u, stp.curRow, false, stp.curRow⟩ :=
    h3 _ hcr
  have hgetD : stp.rows.getD stp.curRow ⟨0, 0, false, 0⟩
      = ⟨u, stp.curRow, false, stp.curRow⟩ := by
    rw [List.getD_eq_getElem?_getD, hget]
    rfl
  have hrowsf : (finalizeRun stp).rows
      = stp.rows.set stp.curRow ⟨u, stp.curRow, true, stp.curRow⟩ := by
    simp only [finalizeRun]
    rw [hgetD]
  have hopf : (finalizeRun stp).opened = stp.opened := rfl
  refine ⟨?_, ?_, ?_⟩
  · rw [hrowsf, hopf, List.length_set, h1]
  · rw [hrowsf, List.length_set]
    omega
  · intro i hi
    rw [hrowsf] at hi ⊢
    rw [List.length_set] at hi ⊢
    by_cases hieq : i = stp.curRow
    · subst hieq
      rw [List.getElem?_set_eq_of_lt _ hcr]
      have hdec : decide (stp.curRow + 1 = stp.rows.length) = true := by
        simpa using h2
      rw [hdec]
    · rw [List.getElem?_set_ne (fun hh => hieq hh.symm)]
      have hdec : decide (i + 1 = stp.rows.length) = false := by
        simp only [decide_eq_false_iff_not]
        omega
      rw [hdec]
      exact h3 i hi

/-- Witness for C5: the two-volume `filesC5` run ends with rows
`(uuid 7, seq 0, non-final, volume 0)` and `(uuid 7, seq 1, final,
volume 1)`. -/
theorem lineage_monotonicity_witness :
    stfC5.rows.length = stfC5.opened
    ∧ 0 < stfC5.rows.length
    ∧ ∀ i, i < stfC5.rows.length →
        stfC5.rows[i]? = some ⟨7, i, decide (i + 1 = stfC5.rows.length), i⟩ :=
  lineage_monotonicity 7 ["s1"] filesC5 [] stfC5 (by decide)

end SSB
